import Mathlib

/-!
Verification of the Adaptive Assessment & Retention Engine of JARVIS 8.0 ULTRA.

The IRT (3-parameter logistic) estimator, item selector and stopping rule from
`src/lib/irt.ts` are embedded over the reals: JavaScript double arithmetic is
modelled by exact real arithmetic, `Math.exp` by `Real.exp`, `Math.sqrt` by
`Real.sqrt`, and the per-iteration `Math.random()` draws of the item selector
by an injected stream `rand : ℕ → ℝ`.  The `-Infinity` initial accumulator of
the selection loop is modelled by an `Option` accumulator that is always
replaced on the first candidate, which is exactly the behaviour of comparing
a finite score against `-Infinity`.

The SM-2 spaced-repetition scheduler and the due-review query from
`src/app/page.tsx` are purely rational/integer computations and are embedded
computably over `ℚ` and `ℤ` (dates as milliseconds since an epoch falling at
local midnight; `Date.setHours(23,59,59,999)` becomes the last millisecond of
the civil day; `new Date()` inside `calculateNextReview` becomes an explicit
`now` argument).
-/

namespace IRT

/-- Utility from `irt.ts`: `clamp(value, min, max) = Math.max(min, Math.min(max, value))`. -/
noncomputable def clamp (value minVal maxVal : ℝ) : ℝ :=
  max minVal (min maxVal value)

/-- Item parameters of the 3PL model (`IRTParameters` in `irt.ts`). -/
structure IRTParameters where
  difficulty : ℝ
  discrimination : ℝ
  guessing : ℝ

/-- Result record of a theta update (`IRTResult` in `irt.ts`). -/
structure IRTResult where
  thetaBefore : ℝ
  thetaAfter : ℝ
  thetaChange : ℝ
  probabilityCorrect : ℝ
  information : ℝ

/-- A question together with its IRT parameters (`QuestionIRT` in `irt.ts`). -/
structure QuestionIRT where
  difficulty : ℝ
  discrimination : ℝ
  guessing : ℝ
  id : String
  subjectId : String
  topicId : String

noncomputable def THETA_MIN : ℝ := -3.0

noncomputable def THETA_MAX : ℝ := 3.0

noncomputable def DISCRIMINATION_MIN : ℝ := 0.5

noncomputable def DISCRIMINATION_MAX : ℝ := 2.5

noncomputable def GUESSING_DEFAULT : ℝ := 0.25

/-- 3PL response probability from `irt.ts`:
`P(θ) = c + (1 - c) / (1 + exp(-a(θ - b)))` with all inputs clamped first. -/
noncomputable def probabilityCorrect (theta : ℝ) (params : IRTParameters) : ℝ :=
  let t := clamp theta THETA_MIN THETA_MAX
  let b := clamp params.difficulty THETA_MIN THETA_MAX
  let a := clamp params.discrimination DISCRIMINATION_MIN DISCRIMINATION_MAX
  let c := clamp params.guessing 0 0.5
  let exponent := -a * (t - b)
  c + (1 - c) / (1 + Real.exp exponent)

/-- Fisher information from `irt.ts`:
`I = a²·P·Q / (P - c)² · (1 - c)²`, returning 0 when the denominator is zero. -/
noncomputable def fisherInformation (theta : ℝ) (params : IRTParameters) : ℝ :=
  let P := probabilityCorrect theta params
  let Q := 1 - P
  let a := clamp params.discrimination DISCRIMINATION_MIN DISCRIMINATION_MAX
  let c := clamp params.guessing 0 0.5
  let numerator := a * a * P * Q
  let denominator := (P - c) ^ 2
  if denominator = 0 then 0 else numerator / denominator * (1 - c) ^ 2

/-- Damped single-step theta update from `irt.ts` (`updateTheta`). -/
noncomputable def updateTheta (currentTheta : ℝ) (params : IRTParameters)
    (isCorrect : Bool) : IRTResult :=
  let thetaBefore := currentTheta
  let P := probabilityCorrect currentTheta params
  let I := fisherInformation currentTheta params
  if I < 0.001 then
    { thetaBefore := thetaBefore, thetaAfter := thetaBefore, thetaChange := 0,
      probabilityCorrect := P, information := I }
  else
    let observed : ℝ := if isCorrect then 1 else 0
    let thetaChange := (observed - P) / I
    let dampingFactor : ℝ := 0.7
    let adjustedChange := thetaChange * dampingFactor
    let thetaAfter := clamp (thetaBefore + adjustedChange) THETA_MIN THETA_MAX
    { thetaBefore := thetaBefore, thetaAfter := thetaAfter,
      thetaChange := thetaAfter - thetaBefore,
      probabilityCorrect := P, information := I }

/-- Selection loop of `selectOptimalQuestion`: walks the available questions,
computing Fisher information with the fixed `GUESSING_DEFAULT` guessing value,
jittering it by `0.95 + rand i * 0.1`, and keeping the candidate with the
highest jittered score seen so far.  The accumulator `best = none` models the
initial `maxInformation = -Infinity` state, against which any finite score
wins. -/
noncomputable def selectLoop (theta : ℝ) (rand : ℕ → ℝ) :
    List QuestionIRT → ℕ → Option (ℝ × QuestionIRT) → Option QuestionIRT
  | [], _, best => best.map Prod.snd
  | question :: rest, i, best =>
    let params : IRTParameters :=
      { difficulty := question.difficulty,
        discrimination := question.discrimination,
        guessing := GUESSING_DEFAULT }
    let information := fisherInformation theta params
    let randomFactor := 0.95 + rand i * 0.1
    let adjustedInfo := information * randomFactor
    match best with
    | none => selectLoop theta rand rest (i + 1) (some (adjustedInfo, question))
    | some (maxInfo, bestQ) =>
      if adjustedInfo > maxInfo then
        selectLoop theta rand rest (i + 1) (some (adjustedInfo, question))
      else
        selectLoop theta rand rest (i + 1) (some (maxInfo, bestQ))

/-- Item selector from `irt.ts` (`selectOptimalQuestion`): filters out already
answered questions, returns `none` on an empty pool, otherwise the candidate
maximising the jittered Fisher information. -/
noncomputable def selectOptimalQuestion (currentTheta : ℝ)
    (questions : List QuestionIRT) (answeredQuestionIds : List String)
    (rand : ℕ → ℝ) : Option QuestionIRT :=
  let availableQuestions :=
    questions.filter (fun q => decide (q.id ∉ answeredQuestionIds))
  if availableQuestions.isEmpty then none
  else selectLoop currentTheta rand availableQuestions 0 none

/-- Standard error of the theta estimate from `irt.ts`
(`calculateStandardError`): `1 / sqrt(Σ I)`, or the full theta range when the
total information is not positive. -/
noncomputable def calculateStandardError (theta : ℝ)
    (questionParams : List IRTParameters) : ℝ :=
  let totalInformation :=
    (questionParams.map (fun params => fisherInformation theta params)).sum
  if totalInformation ≤ 0 then THETA_MAX - THETA_MIN
  else 1 / Real.sqrt totalInformation

/-- Reason component of the stopping decision.  The source returns strings;
the interpolated standard error of `Target precision achieved (SE = …)` and
`SE = …, continuing` is carried as a payload. -/
inductive StopReason where
  | maximumQuestionsReached : StopReason
  | targetPrecisionAchieved : ℝ → StopReason
  | minimumQuestionsNotReached : StopReason
  | continuing : ℝ → StopReason

/-- Stop/continue decision record of `shouldStopCAT`. -/
structure StopDecision where
  stop : Bool
  reason : StopReason

/-- Stopping rule from `irt.ts` (`shouldStopCAT`), checks in source order:
question limit, then standard error against `targetSE`, then the minimum of 5
questions.  The TypeScript default `targetSE = 0.3` is passed explicitly. -/
noncomputable def shouldStopCAT (theta : ℝ) (questionParams : List IRTParameters)
    (maxQuestions currentQuestionCount : ℕ) (targetSE : ℝ) : StopDecision :=
  if currentQuestionCount ≥ maxQuestions then
    { stop := true, reason := .maximumQuestionsReached }
  else
    let se := calculateStandardError theta questionParams
    if se < targetSE then
      { stop := true, reason := .targetPrecisionAchieved se }
    else if currentQuestionCount < 5 then
      { stop := false, reason := .minimumQuestionsNotReached }
    else
      { stop := false, reason := .continuing se }

/-- Replace a question's guessing parameter by an arbitrary new value computed
from the question, leaving every other field unchanged. -/
noncomputable def setGuessing (g : QuestionIRT → ℝ) (q : QuestionIRT) :
    QuestionIRT :=
  { q with guessing := g q }

/-- Sample question used to exercise the selector at a concrete input. -/
noncomputable def demoQuestion : QuestionIRT :=
  { difficulty := 0, discrimination := 1, guessing := 0.25,
    id := "q1", subjectId := "s1", topicId := "t1" }

/-- Concrete item at average difficulty with guessing 0.25. -/
noncomputable def itemMid : IRTParameters :=
  { difficulty := 0, discrimination := 1, guessing := 0.25 }

/-- Concrete item at average difficulty with no guessing. -/
noncomputable def itemAtZero : IRTParameters :=
  { difficulty := 0, discrimination := 1, guessing := 0 }

/-- Concrete very easy item (difficulty -3, sharp discrimination): at high
ability it carries almost no Fisher information under the source's formula. -/
noncomputable def itemEasy : IRTParameters :=
  { difficulty := -3, discrimination := 2.5, guessing := 0 }

/-- Concrete item at the top of the difficulty range. -/
noncomputable def itemHard : IRTParameters :=
  { difficulty := 3, discrimination := 1, guessing := 0 }

/-- Concrete maximally informative item: sharp discrimination at difficulty 0. -/
noncomputable def itemPeak : IRTParameters :=
  { difficulty := 0, discrimination := 2.5, guessing := 0 }

end IRT

namespace SM2

/-- Utility from `page.tsx`: `clamp(value, min, max) = Math.max(min, Math.min(max, value))`. -/
def clamp (value minVal maxVal : ℚ) : ℚ :=
  max minVal (min maxVal value)

/-- Card state consumed by the scheduler (`SM2Parameters` in `page.tsx`). -/
structure SM2Parameters where
  easeFactor : ℚ
  interval : ℚ
  repetitions : ℚ

/-- Result of a scheduling step (`SM2Result` in `page.tsx`).  `nextReviewDate`
is kept in days: the source sets it to `now + interval` days. -/
structure SM2Result where
  easeFactor : ℚ
  interval : ℚ
  repetitions : ℚ
  nextReviewDate : ℚ
  quality : ℚ

/-- A persisted review card (`ReviewItem` in `page.tsx`); dates in integer
milliseconds. -/
structure ReviewItem where
  id : String
  userId : String
  topicId : String
  easeFactor : ℚ
  interval : ℚ
  repetitions : ℚ
  lastReviewDate : Option ℤ
  nextReviewDate : ℤ

def QUALITY_MIN : ℚ := 0

def QUALITY_MAX : ℚ := 5

def EASE_FACTOR_MIN : ℚ := 1.3

def EASE_FACTOR_DEFAULT : ℚ := 2.5

def INTERVALS_FIRST : ℚ := 1

def INTERVALS_SECOND : ℚ := 3

/-- SM-2 scheduling step from `page.tsx` (`calculateNextReview`): quality < 3
resets repetitions and interval; otherwise repetitions increments and the
interval follows 1, 3, round(interval · easeFactor); the ease factor always
updates by the SM-2 formula and is floored at 1.3.  `now` replaces the
source's `new Date()` (in days). -/
def calculateNextReview (currentParams : SM2Parameters) (quality : ℚ)
    (now : ℚ) : SM2Result :=
  let q := clamp quality QUALITY_MIN QUALITY_MAX
  let repetitions : ℚ :=
    if q < 3 then 0 else currentParams.repetitions + 1
  let interval : ℚ :=
    if q < 3 then INTERVALS_FIRST
    else if currentParams.repetitions + 1 = 1 then INTERVALS_FIRST
    else if currentParams.repetitions + 1 = 2 then INTERVALS_SECOND
    else ((round (currentParams.interval * currentParams.easeFactor) : ℤ) : ℚ)
  let easeFactor : ℚ :=
    max EASE_FACTOR_MIN
      (currentParams.easeFactor + (0.1 - (5 - q) * (0.08 + (5 - q) * 0.02)))
  { easeFactor := easeFactor, interval := interval, repetitions := repetitions,
    nextReviewDate := now + interval, quality := q }

/-- Extract the card state carried into the next scheduling step. -/
def SM2Result.toParams (r : SM2Result) : SM2Parameters :=
  { easeFactor := r.easeFactor, interval := r.interval,
    repetitions := r.repetitions }

/-- Fold a sequence of quality ratings through the scheduler. -/
def reviewRun (card : SM2Parameters) (qualities : List ℚ) (now : ℚ) :
    SM2Parameters :=
  qualities.foldl (fun c q => (calculateNextReview c q now).toParams) card

def msPerDay : ℤ := 86400000

/-- Due-review query from `page.tsx` (`getDueReviews`): widens `asOfDate` to
the last millisecond of its civil day (`setHours(23,59,59,999)`) and keeps the
items whose `nextReviewDate` is not later than that. -/
def getDueReviews (items : List ReviewItem) (asOfDate : ℤ) : List ReviewItem :=
  let today := msPerDay * (asOfDate / msPerDay) + (msPerDay - 1)
  items.filter (fun item => decide (item.nextReviewDate ≤ today))

/-- Sample card used to exercise the due-review query at a concrete input. -/
def demoCard : ReviewItem :=
  { id := "card", userId := "u", topicId := "t", easeFactor := 2.5,
    interval := 3, repetitions := 1, lastReviewDate := none,
    nextReviewDate := 3 * msPerDay }

lemma clamp_lt_three {q : ℚ} (h : q < 3) :
    clamp q QUALITY_MIN QUALITY_MAX < 3 := by
  unfold clamp QUALITY_MIN QUALITY_MAX
  exact max_lt (by norm_num) (lt_of_le_of_lt (min_le_right _ _) h)

lemma easeFactor_floor_aux (card : SM2Parameters) (q now : ℚ) :
    EASE_FACTOR_MIN ≤ (calculateNextReview card q now).easeFactor := by
  simp only [calculateNextReview]
  exact le_max_left _ _

lemma reviewRun_zero_ease (now : ℚ) :
    ∀ (n : ℕ) (card : SM2Parameters), 1.3 ≤ card.easeFactor →
      1.3 ≤ (reviewRun card (List.replicate n 0) now).easeFactor
  | 0, _, h => by simpa [reviewRun] using h
  | n + 1, card, _ => by
    rw [List.replicate_succ]
    show 1.3 ≤ (reviewRun ((calculateNextReview card 0 now).toParams)
      (List.replicate n 0) now).easeFactor
    exact reviewRun_zero_ease now n _
      (by simpa [EASE_FACTOR_MIN, SM2Result.toParams]
        using easeFactor_floor_aux card 0 now)

lemma mem_getDueReviews {items : List ReviewItem} {item : ReviewItem}
    {asOf : ℤ} :
    item ∈ getDueReviews items asOf ↔
      item ∈ items ∧
        item.nextReviewDate ≤ msPerDay * (asOf / msPerDay) + (msPerDay - 1) := by
  simp [getDueReviews]

end SM2

namespace SM2

/-- C5: starting from the default card (ease 2.5, interval 1, repetitions 0),
three consecutive quality-5 reviews, each fed the previous output, produce the
interval sequence 1, then 3, then 8. -/
theorem calculateNextReview_quality5_intervals :
    (calculateNextReview { easeFactor := 2.5, interval := 1, repetitions := 0 }
        5 0).interval = 1 ∧
    (calculateNextReview (calculateNextReview
        { easeFactor := 2.5, interval := 1, repetitions := 0 } 5 0).toParams
        5 0).interval = 3 ∧
    (calculateNextReview (calculateNextReview (calculateNextReview
        { easeFactor := 2.5, interval := 1, repetitions := 0 } 5 0).toParams
        5 0).toParams 5 0).interval = 8 := by
  have h1 : calculateNextReview
      { easeFactor := 2.5, interval := 1, repetitions := 0 } 5 0 =
      { easeFactor := 2.6, interval := 1, repetitions := 1,
        nextReviewDate := 1, quality := 5 } := by
    norm_num [calculateNextReview, clamp, QUALITY_MIN, QUALITY_MAX,
      INTERVALS_FIRST, INTERVALS_SECOND, EASE_FACTOR_MIN, max_def, min_def]
  have h2 : calculateNextReview
      { easeFactor := 2.6, interval := 1, repetitions := 1 } 5 0 =
      { easeFactor := 2.7, interval := 3, repetitions := 2,
        nextReviewDate := 3, quality := 5 } := by
    norm_num [calculateNextReview, clamp, QUALITY_MIN, QUALITY_MAX,
      INTERVALS_FIRST, INTERVALS_SECOND, EASE_FACTOR_MIN, max_def, min_def]
  have h3 : calculateNextReview
      { easeFactor := 2.7, interval := 3, repetitions := 2 } 5 0 =
      { easeFactor := 2.8, interval := 8, repetitions := 3,
        nextReviewDate := 8, quality := 5 } := by
    norm_num [calculateNextReview, clamp, QUALITY_MIN, QUALITY_MAX,
      INTERVALS_FIRST, INTERVALS_SECOND, EASE_FACTOR_MIN, max_def, min_def,
      round_eq]
  refine ⟨by simp [h1], ?_, ?_⟩
  · rw [h1]
    show (calculateNextReview
      { easeFactor := 2.6, interval := 1, repetitions := 1 } 5 0).interval = 3
    rw [h2]
  · rw [h1]
    show (calculateNextReview (calculateNextReview
      { easeFactor := 2.6, interval := 1, repetitions := 1 } 5 0).toParams
      5 0).interval = 8
    rw [h2]
    show (calculateNextReview
      { easeFactor := 2.7, interval := 3, repetitions := 2 } 5 0).interval = 8
    rw [h3]

/-- C6: any quality rating below 3 resets a card, whatever its state: the
scheduled card has repetitions 0 and interval 1. -/
theorem calculateNextReview_fail_resets (card : SM2Parameters) (q now : ℚ)
    (h : q < 3) :
    (calculateNextReview card q now).repetitions = 0 ∧
    (calculateNextReview card q now).interval = 1 := by
  have hq := clamp_lt_three h
  simp [calculateNextReview, hq, INTERVALS_FIRST]

theorem calculateNextReview_fail_resets_witness :
    ((2 : ℚ) < 3) ∧
    ((calculateNextReview { easeFactor := 2.5, interval := 10, repetitions := 5 }
        2 0).repetitions = 0 ∧
      (calculateNextReview { easeFactor := 2.5, interval := 10, repetitions := 5 }
        2 0).interval = 1) :=
  ⟨by norm_num,
    calculateNextReview_fail_resets
      { easeFactor := 2.5, interval := 10, repetitions := 5 } 2 0 (by norm_num)⟩

/-- C7: a card with ease factor at least 1.3 keeps an ease factor of at least
1.3 after any review with quality in [0, 5]; consequently a run of
consecutive quality-0 reviews never drives the ease factor below 1.3. -/
theorem calculateNextReview_easeFactor_floor (card : SM2Parameters)
    (q now : ℚ) (h13 : 1.3 ≤ card.easeFactor) (h0 : 0 ≤ q) (h5 : q ≤ 5) :
    1.3 ≤ (calculateNextReview card q now).easeFactor ∧
    ∀ n : ℕ, 1.3 ≤ (reviewRun card (List.replicate n 0) now).easeFactor := by
  refine ⟨?_, fun n => reviewRun_zero_ease now n card h13⟩
  simpa [EASE_FACTOR_MIN] using easeFactor_floor_aux card q now

theorem calculateNextReview_easeFactor_floor_witness :
    ((1.3 : ℚ) ≤ 2.5 ∧ (0 : ℚ) ≤ 0 ∧ (0 : ℚ) ≤ 5) ∧
    (1.3 ≤ (calculateNextReview
        { easeFactor := 2.5, interval := 1, repetitions := 0 } 0 0).easeFactor ∧
      ∀ n : ℕ, 1.3 ≤ (reviewRun
        { easeFactor := 2.5, interval := 1, repetitions := 0 }
        (List.replicate n 0) 0).easeFactor) :=
  ⟨by norm_num,
    calculateNextReview_easeFactor_floor
      { easeFactor := 2.5, interval := 1, repetitions := 0 } 0 0
      (by norm_num) (by norm_num) (by norm_num)⟩

/-- C8: a card whose next review date is exactly three days after `today` is
absent from the due-review query evaluated today and tomorrow, and present
when evaluated on day 3. -/
theorem getDueReviews_three_day_roundtrip (items : List ReviewItem)
    (item : ReviewItem) (today : ℤ) (hmem : item ∈ items)
    (hdate : item.nextReviewDate = today + 3 * msPerDay) :
    item ∉ getDueReviews items today ∧
    item ∉ getDueReviews items (today + msPerDay) ∧
    item ∈ getDueReviews items (today + 3 * msPerDay) := by
  refine ⟨?_, ?_, ?_⟩ <;>
    simp only [mem_getDueReviews, hdate, hmem, true_and, not_and, msPerDay] <;>
    omega

theorem getDueReviews_three_day_roundtrip_witness :
    demoCard ∉ getDueReviews [demoCard] 0 ∧
    demoCard ∉ getDueReviews [demoCard] msPerDay ∧
    demoCard ∈ getDueReviews [demoCard] (3 * msPerDay) := by
  have h := getDueReviews_three_day_roundtrip [demoCard] demoCard 0
    (by simp) (by simp [demoCard])
  simpa using h

end SM2

namespace IRT

lemma le_clamp (value minVal maxVal : ℝ) : minVal ≤ clamp value minVal maxVal :=
  le_max_left _ _

lemma clamp_le (value : ℝ) {minVal maxVal : ℝ} (h : minVal ≤ maxVal) :
    clamp value minVal maxVal ≤ maxVal :=
  max_le h (min_le_left _ _)

lemma clamp_eq_of_mem {value minVal maxVal : ℝ} (h1 : minVal ≤ value)
    (h2 : value ≤ maxVal) : clamp value minVal maxVal = value := by
  unfold clamp
  rw [min_eq_right h2, max_eq_right h1]

lemma probabilityCorrect_eq (theta : ℝ) (p : IRTParameters) :
    probabilityCorrect theta p =
      clamp p.guessing 0 0.5 + (1 - clamp p.guessing 0 0.5) /
        (1 + Real.exp (-(clamp p.discrimination 0.5 2.5) *
          (clamp theta (-3) 3 - clamp p.difficulty (-3) 3))) := by
  norm_num [probabilityCorrect, THETA_MIN, THETA_MAX, DISCRIMINATION_MIN,
    DISCRIMINATION_MAX]

lemma fisherInformation_eq (theta : ℝ) (p : IRTParameters) :
    fisherInformation theta p =
      if (probabilityCorrect theta p - clamp p.guessing 0 0.5) ^ 2 = 0 then 0
      else (clamp p.discrimination 0.5 2.5 * clamp p.discrimination 0.5 2.5 *
          probabilityCorrect theta p * (1 - probabilityCorrect theta p)) /
        (probabilityCorrect theta p - clamp p.guessing 0 0.5) ^ 2 *
        (1 - clamp p.guessing 0 0.5) ^ 2 := by
  norm_num [fisherInformation, DISCRIMINATION_MIN, DISCRIMINATION_MAX]

lemma guessing_nonneg (p : IRTParameters) : 0 ≤ clamp p.guessing 0 0.5 :=
  le_clamp _ _ _

lemma guessing_le_half (p : IRTParameters) : clamp p.guessing 0 0.5 ≤ 0.5 :=
  clamp_le _ (by norm_num)

lemma one_add_exp_pos (x : ℝ) : 0 < 1 + Real.exp x := by positivity

lemma guess_lt_prob (theta : ℝ) (p : IRTParameters) :
    clamp p.guessing 0 0.5 < probabilityCorrect theta p := by
  rw [probabilityCorrect_eq]
  have hc := guessing_le_half p
  have hfrac : 0 < (1 - clamp p.guessing 0 0.5) /
      (1 + Real.exp (-(clamp p.discrimination 0.5 2.5) *
        (clamp theta (-3) 3 - clamp p.difficulty (-3) 3))) :=
    div_pos (by linarith) (one_add_exp_pos _)
  linarith

lemma prob_pos (theta : ℝ) (p : IRTParameters) :
    0 < probabilityCorrect theta p :=
  lt_of_le_of_lt (guessing_nonneg p) (guess_lt_prob theta p)

lemma prob_lt_one (theta : ℝ) (p : IRTParameters) :
    probabilityCorrect theta p < 1 := by
  rw [probabilityCorrect_eq]
  have hc := guessing_le_half p
  have h1 : 1 < 1 + Real.exp (-(clamp p.discrimination 0.5 2.5) *
      (clamp theta (-3) 3 - clamp p.difficulty (-3) 3)) := by
    have := Real.exp_pos (-(clamp p.discrimination 0.5 2.5) *
      (clamp theta (-3) 3 - clamp p.difficulty (-3) 3))
    linarith
  have hfrac : (1 - clamp p.guessing 0 0.5) /
      (1 + Real.exp (-(clamp p.discrimination 0.5 2.5) *
        (clamp theta (-3) 3 - clamp p.difficulty (-3) 3))) <
      1 - clamp p.guessing 0 0.5 :=
    div_lt_self (by linarith) h1
  linarith

/-- C4 (amended): on the modelled ability range, for fixed item parameters the
3PL response probability is strictly increasing in theta: for all
`-3 ≤ theta1 < theta2 ≤ 3`, `probabilityCorrect theta1 p < probabilityCorrect
theta2 p`.  Outside that range the source clamps theta, so the function is
only weakly increasing there. -/
theorem probabilityCorrect_strictMono (t1 t2 : ℝ) (p : IRTParameters)
    (h1 : -3 ≤ t1) (h12 : t1 < t2) (h2 : t2 ≤ 3) :
    probabilityCorrect t1 p < probabilityCorrect t2 p := by
  rw [probabilityCorrect_eq, probabilityCorrect_eq]
  rw [clamp_eq_of_mem h1 (le_trans h12.le h2),
    clamp_eq_of_mem (le_trans h1 h12.le) h2]
  have hc := guessing_le_half p
  have hapos : (0 : ℝ) < clamp p.discrimination 0.5 2.5 :=
    lt_of_lt_of_le (by norm_num) (le_clamp _ _ _)
  have hexp : Real.exp (-(clamp p.discrimination 0.5 2.5) *
        (t2 - clamp p.difficulty (-3) 3)) <
      Real.exp (-(clamp p.discrimination 0.5 2.5) *
        (t1 - clamp p.difficulty (-3) 3)) := by
    apply Real.exp_lt_exp.mpr
    nlinarith
  have hd2 := one_add_exp_pos (-(clamp p.discrimination 0.5 2.5) *
    (t2 - clamp p.difficulty (-3) 3))
  have hlt : 1 + Real.exp (-(clamp p.discrimination 0.5 2.5) *
        (t2 - clamp p.difficulty (-3) 3)) <
      1 + Real.exp (-(clamp p.discrimination 0.5 2.5) *
        (t1 - clamp p.difficulty (-3) 3)) := by linarith
  have hfrac := div_lt_div_of_pos_left
    (show (0 : ℝ) < 1 - clamp p.guessing 0 0.5 by linarith) hd2 hlt
  linarith

theorem probabilityCorrect_strictMono_witness :
    ((-3 : ℝ) ≤ 0 ∧ (0 : ℝ) < 1 ∧ (1 : ℝ) ≤ 3) ∧
    probabilityCorrect 0 itemMid < probabilityCorrect 1 itemMid :=
  ⟨by norm_num,
    probabilityCorrect_strictMono 0 1 itemMid
      (by norm_num) (by norm_num) (by norm_num)⟩

/-- C4 counterexample: as stated over all theta the claim fails, because the
source clamps theta to [-3, 3] first: 4 < 5 but the probabilities at theta 4
and theta 5 coincide. -/
theorem probabilityCorrect_strictMono_counterexample :
    (4 : ℝ) < 5 ∧
    probabilityCorrect 4 itemAtZero = probabilityCorrect 5 itemAtZero := by
  refine ⟨by norm_num, ?_⟩
  rw [probabilityCorrect_eq, probabilityCorrect_eq]
  norm_num [itemAtZero, clamp, min_def, max_def]

end IRT

namespace IRT

lemma clamp_theta_lb (x : ℝ) : -3 ≤ clamp x THETA_MIN THETA_MAX := by
  linarith [le_clamp x THETA_MIN THETA_MAX,
    show THETA_MIN = (-3 : ℝ) by norm_num [THETA_MIN]]

lemma clamp_theta_ub (x : ℝ) : clamp x THETA_MIN THETA_MAX ≤ 3 := by
  linarith [clamp_le x
      (show THETA_MIN ≤ THETA_MAX by norm_num [THETA_MIN, THETA_MAX]),
    show THETA_MAX = (3 : ℝ) by norm_num [THETA_MAX]]

lemma le_clamp_theta_of_le {t x : ℝ} (hhi : t ≤ 3) (hx : t ≤ x) :
    t ≤ clamp x THETA_MIN THETA_MAX := by
  unfold clamp
  refine le_trans (le_min ?_ hx) (le_max_right _ _)
  simp only [THETA_MAX]
  linarith

lemma clamp_theta_le_of_le {t x : ℝ} (hlo : -3 ≤ t) (hx : x ≤ t) :
    clamp x THETA_MIN THETA_MAX ≤ t := by
  unfold clamp
  apply max_le
  · simp only [THETA_MIN]; linarith
  · exact le_trans (min_le_right _ _) hx

/-- C2 (amended): for every starting theta inside [-3, 3], every item
parameters and every correctness flag, the thetaAfter returned by updateTheta
lies in [-3, 3].  For theta outside that range the zero-information early
return hands the unclamped theta back unchanged, so the precondition is
needed. -/
theorem updateTheta_thetaAfter_bounded (t : ℝ) (p : IRTParameters)
    (correct : Bool) (hlo : -3 ≤ t) (hhi : t ≤ 3) :
    -3 ≤ (updateTheta t p correct).thetaAfter ∧
      (updateTheta t p correct).thetaAfter ≤ 3 := by
  simp only [updateTheta]
  by_cases hI : fisherInformation t p < 0.001
  · rw [if_pos hI]
    exact ⟨hlo, hhi⟩
  · rw [if_neg hI]
    exact ⟨clamp_theta_lb _, clamp_theta_ub _⟩

theorem updateTheta_thetaAfter_bounded_witness :
    ((-3 : ℝ) ≤ 0 ∧ (0 : ℝ) ≤ 3) ∧
    (-3 ≤ (updateTheta 0 itemMid true).thetaAfter ∧
      (updateTheta 0 itemMid true).thetaAfter ≤ 3) :=
  ⟨by norm_num,
    updateTheta_thetaAfter_bounded 0 itemMid true (by norm_num) (by norm_num)⟩

lemma exp_fifteen_gt : (6250 : ℝ) < Real.exp 15 := by
  have h1 : (2.7182818283 : ℝ) < Real.exp 1 := Real.exp_one_gt_d9
  have h2 : Real.exp 15 = Real.exp 1 ^ 15 := by
    rw [show (15 : ℝ) = ((15 : ℕ) : ℝ) * 1 by norm_num, Real.exp_nat_mul]
  rw [h2]
  calc (6250 : ℝ) < 2.7182818283 ^ 15 := by norm_num
  _ ≤ Real.exp 1 ^ 15 := pow_le_pow_left₀ (by norm_num) h1.le 15

lemma exp_neg_fifteen_lt : Real.exp (-15) < 0.00016 := by
  rw [Real.exp_neg, inv_eq_one_div, div_lt_iff₀ (Real.exp_pos _)]
  nlinarith [exp_fifteen_gt]

lemma prob_ten_itemEasy :
    probabilityCorrect 10 itemEasy = 1 / (1 + Real.exp (-15)) := by
  rw [probabilityCorrect_eq]
  norm_num [itemEasy, clamp, min_def, max_def]

lemma fisher_ten_itemEasy_lt : fisherInformation 10 itemEasy < 0.001 := by
  have hc : clamp itemEasy.guessing 0 0.5 = 0 := by
    norm_num [itemEasy, clamp, min_def, max_def]
  have ha : clamp itemEasy.discrimination 0.5 2.5 = 2.5 := by
    norm_num [itemEasy, clamp, min_def, max_def]
  have h1E : (0 : ℝ) < 1 + Real.exp (-15) := by positivity
  have h1E' : (1 : ℝ) + Real.exp (-15) ≠ 0 := ne_of_gt h1E
  rw [fisherInformation_eq, prob_ten_itemEasy, hc, ha, sub_zero]
  have hden : (1 / (1 + Real.exp (-15))) ^ 2 ≠ 0 := by positivity
  rw [if_neg hden]
  have heq : (2.5 * 2.5 * (1 / (1 + Real.exp (-15))) *
        (1 - 1 / (1 + Real.exp (-15)))) /
        (1 / (1 + Real.exp (-15))) ^ 2 * (1 - 0) ^ 2 =
      6.25 * Real.exp (-15) := by
    field_simp
    ring
  rw [heq]
  nlinarith [exp_neg_fifteen_lt, Real.exp_pos (-15 : ℝ)]

/-- C2 counterexample: with input theta 10 (out of range, which the claim
explicitly allows) and a very easy sharp item, the Fisher information falls
below the 0.001 threshold and the early return hands back thetaAfter = 10,
outside [-3, 3]. -/
theorem updateTheta_thetaAfter_bounded_counterexample :
    (updateTheta 10 itemEasy true).thetaAfter = 10 ∧
    3 < (updateTheta 10 itemEasy true).thetaAfter := by
  have hafter : (updateTheta 10 itemEasy true).thetaAfter = 10 := by
    simp only [updateTheta]
    rw [if_pos fisher_ten_itemEasy_lt]
  exact ⟨hafter, by rw [hafter]; norm_num⟩

/-- C3 (amended): for theta inside [-3, 3] and Fisher information at or above
the 0.001 threshold, a correct answer never decreases theta and an incorrect
answer never increases it.  For theta above 3 the final clamp can pull
thetaAfter below thetaBefore even on a correct answer, so the range
precondition is needed. -/
theorem updateTheta_direction (t : ℝ) (p : IRTParameters)
    (hlo : -3 ≤ t) (hhi : t ≤ 3) (hI : 0.001 ≤ fisherInformation t p) :
    (updateTheta t p true).thetaBefore ≤ (updateTheta t p true).thetaAfter ∧
    (updateTheta t p false).thetaAfter ≤ (updateTheta t p false).thetaBefore := by
  have hInot : ¬ fisherInformation t p < 0.001 := not_lt.mpr hI
  have hIpos : (0 : ℝ) < fisherInformation t p :=
    lt_of_lt_of_le (by norm_num) hI
  have hP1 := prob_lt_one t p
  have hP0 := prob_pos t p
  constructor
  · simp only [updateTheta]
    rw [if_neg hInot]
    show t ≤ clamp (t + (1 - probabilityCorrect t p) /
      fisherInformation t p * 0.7) THETA_MIN THETA_MAX
    have hpos : (0 : ℝ) <
        (1 - probabilityCorrect t p) / fisherInformation t p :=
      div_pos (by linarith) hIpos
    exact le_clamp_theta_of_le hhi (by linarith)
  · simp only [updateTheta]
    rw [if_neg hInot]
    show clamp (t + (0 - probabilityCorrect t p) /
      fisherInformation t p * 0.7) THETA_MIN THETA_MAX ≤ t
    have hneg : (0 - probabilityCorrect t p) /
        fisherInformation t p < 0 :=
      div_neg_of_neg_of_pos (by linarith) hIpos
    exact clamp_theta_le_of_le hlo (by linarith)

lemma prob_zero_itemAtZero : probabilityCorrect 0 itemAtZero = 1 / 2 := by
  rw [probabilityCorrect_eq]
  norm_num [itemAtZero, clamp, min_def, max_def, Real.exp_zero]

lemma fisher_zero_itemAtZero : fisherInformation 0 itemAtZero = 1 := by
  rw [fisherInformation_eq, prob_zero_itemAtZero]
  norm_num [itemAtZero, clamp, min_def, max_def]

theorem updateTheta_direction_witness :
    ((-3 : ℝ) ≤ 0 ∧ (0 : ℝ) ≤ 3 ∧
      (0.001 : ℝ) ≤ fisherInformation 0 itemAtZero) ∧
    ((updateTheta 0 itemAtZero true).thetaBefore ≤
        (updateTheta 0 itemAtZero true).thetaAfter ∧
      (updateTheta 0 itemAtZero false).thetaAfter ≤
        (updateTheta 0 itemAtZero false).thetaBefore) := by
  have hI : (0.001 : ℝ) ≤ fisherInformation 0 itemAtZero := by
    rw [fisher_zero_itemAtZero]; norm_num
  exact ⟨⟨by norm_num, by norm_num, hI⟩,
    updateTheta_direction 0 itemAtZero (by norm_num) (by norm_num) hI⟩

lemma prob_ten_itemHard : probabilityCorrect 10 itemHard = 1 / 2 := by
  rw [probabilityCorrect_eq]
  norm_num [itemHard, clamp, min_def, max_def, Real.exp_zero]

lemma fisher_ten_itemHard : fisherInformation 10 itemHard = 1 := by
  rw [fisherInformation_eq, prob_ten_itemHard]
  norm_num [itemHard, clamp, min_def, max_def]

/-- C3 counterexample: at theta 10 on an item of difficulty 3 the information
is 1 (well above the threshold), yet a correct answer yields thetaAfter 3,
strictly below thetaBefore 10, because the update is clamped into [-3, 3]. -/
theorem updateTheta_direction_counterexample :
    (0.001 : ℝ) ≤ (updateTheta 10 itemHard true).information ∧
    (updateTheta 10 itemHard true).thetaAfter <
      (updateTheta 10 itemHard true).thetaBefore := by
  have hInot : ¬ fisherInformation 10 itemHard < 0.001 := by
    rw [fisher_ten_itemHard]; norm_num
  constructor
  · simp only [updateTheta]
    rw [if_neg hInot]
    show (0.001 : ℝ) ≤ fisherInformation 10 itemHard
    rw [fisher_ten_itemHard]; norm_num
  · simp only [updateTheta]
    rw [if_neg hInot]
    show clamp (10 + (1 - probabilityCorrect 10 itemHard) /
      fisherInformation 10 itemHard * 0.7) THETA_MIN THETA_MAX < 10
    rw [prob_ten_itemHard, fisher_ten_itemHard]
    norm_num [clamp, min_def, max_def, THETA_MIN, THETA_MAX]

end IRT

namespace IRT

lemma prob_zero_itemPeak : probabilityCorrect 0 itemPeak = 1 / 2 := by
  rw [probabilityCorrect_eq]
  norm_num [itemPeak, clamp, min_def, max_def, Real.exp_zero]

lemma fisher_zero_itemPeak : fisherInformation 0 itemPeak = 6.25 := by
  rw [fisherInformation_eq, prob_zero_itemPeak]
  norm_num [itemPeak, clamp, min_def, max_def]

lemma se_three_itemPeak :
    calculateStandardError 0 [itemPeak, itemPeak, itemPeak] =
      1 / Real.sqrt 18.75 := by
  simp only [calculateStandardError, List.map_cons, List.map_nil,
    List.sum_cons, List.sum_nil, fisher_zero_itemPeak]
  norm_num

lemma se_three_lt_target : (1 : ℝ) / Real.sqrt 18.75 < 0.3 := by
  have h1 : (10 / 3 : ℝ) < Real.sqrt 18.75 :=
    (Real.lt_sqrt (by norm_num)).mpr (by norm_num)
  have hs : (0 : ℝ) < Real.sqrt 18.75 := by linarith
  rw [div_lt_iff₀ hs]
  nlinarith

/-- C1 counterexample: with three maximally informative administered items the
standard error at theta 0 is below 0.3, and `shouldStopCAT` with
`currentCount = 3` and `maxQuestions = 10 > 3` stops early with the precision
reason — the SE check runs before the minimum-count check, so the claimed
`stop = false, minimum not reached` outcome does not hold regardless of SE. -/
theorem shouldStopCAT_count3_counterexample :
    (shouldStopCAT 0 [itemPeak, itemPeak, itemPeak] 10 3 0.3).stop = true := by
  have hng : ¬ ((3 : ℕ) ≥ 10) := by norm_num
  have hlt : calculateStandardError 0 [itemPeak, itemPeak, itemPeak] < 0.3 := by
    rw [se_three_itemPeak]; exact se_three_lt_target
  simp only [shouldStopCAT]
  rw [if_neg hng, if_pos hlt]

/-- C1 (amended): for every theta, administered items and maxQuestions > 3,
if the standard error of the administered items is at least the 0.3 target,
then `shouldStopCAT` with `currentCount = 3` returns stop = false with the
minimum-not-reached reason.  The unconditional version of the claim is false:
the precision check precedes the minimum-count check in the source. -/
theorem shouldStopCAT_min_floor (t : ℝ) (items : List IRTParameters)
    (maxQ : ℕ) (hmax : 3 < maxQ)
    (hse : 0.3 ≤ calculateStandardError t items) :
    shouldStopCAT t items maxQ 3 0.3 =
      { stop := false, reason := StopReason.minimumQuestionsNotReached } := by
  have h1 : ¬ ((3 : ℕ) ≥ maxQ) := by omega
  have h2 : ¬ (calculateStandardError t items < 0.3) := not_lt.mpr hse
  simp only [shouldStopCAT]
  rw [if_neg h1, if_neg h2, if_pos (by norm_num : (3 : ℕ) < 5)]

lemma se_empty : calculateStandardError 0 ([] : List IRTParameters) = 6 := by
  simp only [calculateStandardError, List.map_nil, List.sum_nil]
  norm_num [THETA_MAX, THETA_MIN]

theorem shouldStopCAT_min_floor_witness :
    ((3 : ℕ) < 10 ∧
      (0.3 : ℝ) ≤ calculateStandardError 0 ([] : List IRTParameters)) ∧
    shouldStopCAT 0 ([] : List IRTParameters) 10 3 0.3 =
      { stop := false, reason := StopReason.minimumQuestionsNotReached } := by
  have hse : (0.3 : ℝ) ≤ calculateStandardError 0 ([] : List IRTParameters) := by
    rw [se_empty]; norm_num
  exact ⟨⟨by norm_num, hse⟩,
    shouldStopCAT_min_floor 0 [] 10 (by norm_num) hse⟩

end IRT

namespace IRT

lemma setGuessing_difficulty (g : QuestionIRT → ℝ) (q : QuestionIRT) :
    (setGuessing g q).difficulty = q.difficulty := rfl

lemma setGuessing_discrimination (g : QuestionIRT → ℝ) (q : QuestionIRT) :
    (setGuessing g q).discrimination = q.discrimination := rfl

lemma setGuessing_qid (g : QuestionIRT → ℝ) (q : QuestionIRT) :
    (setGuessing g q).id = q.id := rfl

lemma selectLoop_mem (theta : ℝ) (rand : ℕ → ℝ) :
    ∀ (l : List QuestionIRT) (i : ℕ) (acc : Option (ℝ × QuestionIRT))
      (q : QuestionIRT),
      selectLoop theta rand l i acc = some q →
      (∃ m, acc = some (m, q)) ∨ q ∈ l := by
  intro l
  induction l with
  | nil =>
    intro i acc q h
    simp only [selectLoop] at h
    left
    cases acc with
    | none => simp at h
    | some mb =>
      obtain ⟨m, b⟩ := mb
      simp only [Option.map_some'] at h
      exact ⟨m, by rw [Option.some.inj h]⟩
  | cons x rest ih =>
    intro i acc q h
    cases acc with
    | none =>
      simp only [selectLoop] at h
      rcases ih (i + 1) _ q h with ⟨m, hm⟩ | hmem
      · right
        have hxq : x = q := congrArg Prod.snd (Option.some.inj hm)
        exact List.mem_cons.mpr (Or.inl hxq.symm)
      · right
        exact List.mem_cons_of_mem _ hmem
    | some mb =>
      obtain ⟨m, b⟩ := mb
      simp only [selectLoop] at h
      split at h
      · rcases ih (i + 1) _ q h with ⟨m2, hm⟩ | hmem
        · right
          have hxq : x = q := congrArg Prod.snd (Option.some.inj hm)
          exact List.mem_cons.mpr (Or.inl hxq.symm)
        · right
          exact List.mem_cons_of_mem _ hmem
      · rcases ih (i + 1) _ q h with ⟨m2, hm⟩ | hmem
        · left
          have hbq : b = q := congrArg Prod.snd (Option.some.inj hm)
          exact ⟨m, by rw [hbq]⟩
        · right
          exact List.mem_cons_of_mem _ hmem

lemma selectLoop_ne_none (theta : ℝ) (rand : ℕ → ℝ) :
    ∀ (l : List QuestionIRT) (i : ℕ) (m : ℝ) (b : QuestionIRT),
      selectLoop theta rand l i (some (m, b)) ≠ none := by
  intro l
  induction l with
  | nil =>
    intro i m b
    simp [selectLoop]
  | cons x rest ih =>
    intro i m b
    simp only [selectLoop]
    split
    · exact ih (i + 1) _ _
    · exact ih (i + 1) _ _

lemma selectLoop_cons_ne_none (theta : ℝ) (rand : ℕ → ℝ) (x : QuestionIRT)
    (rest : List QuestionIRT) (i : ℕ) :
    selectLoop theta rand (x :: rest) i none ≠ none := by
  simp only [selectLoop]
  exact selectLoop_ne_none theta rand rest (i + 1) _ _

/-- C9: the selector returns none exactly when every candidate has already
been answered; whenever an unanswered candidate remains it returns some
unanswered candidate.  Both outcomes are ordinary return values of the total
function — the embedding has no exceptional exit. -/
theorem selectOptimalQuestion_spec (theta : ℝ) (qs : List QuestionIRT)
    (ans : List String) (rand : ℕ → ℝ) :
    (selectOptimalQuestion theta qs ans rand = none ↔
      ∀ q ∈ qs, q.id ∈ ans) ∧
    ∀ q, selectOptimalQuestion theta qs ans rand = some q →
      q ∈ qs ∧ q.id ∉ ans := by
  simp only [selectOptimalQuestion]
  constructor
  · constructor
    · intro h q hq
      by_contra hid
      have hmem : q ∈ qs.filter (fun r => decide (r.id ∉ ans)) :=
        List.mem_filter.mpr ⟨hq, by simpa using hid⟩
      have hne : qs.filter (fun r => decide (r.id ∉ ans)) ≠ [] := by
        intro h0
        rw [h0] at hmem
        simp at hmem
      rw [if_neg (by simpa [List.isEmpty_iff] using hne)] at h
      obtain ⟨x, rest, hxr⟩ := List.exists_cons_of_ne_nil hne
      rw [hxr] at h
      exact selectLoop_cons_ne_none theta rand x rest 0 h
    · intro hall
      have hnil : qs.filter (fun r => decide (r.id ∉ ans)) = [] := by
        rw [List.filter_eq_nil_iff]
        intro a ha
        simpa using hall a ha
      rw [if_pos (show (qs.filter (fun r => decide (r.id ∉ ans))).isEmpty = true
        by rw [hnil]; rfl)]
  · intro q hq
    by_cases he : (qs.filter (fun r => decide (r.id ∉ ans))).isEmpty
    · rw [if_pos he] at hq
      simp at hq
    · rw [if_neg he] at hq
      rcases selectLoop_mem theta rand _ 0 none q hq with ⟨m, hm⟩ | hmem
      · simp at hm
      · have h2 := List.mem_filter.mp hmem
        exact ⟨h2.1, by simpa using h2.2⟩

theorem selectOptimalQuestion_spec_witness :
    selectOptimalQuestion 0 [demoQuestion] [] (fun _ => 0) =
        some demoQuestion ∧
    (demoQuestion ∈ [demoQuestion] ∧
      demoQuestion.id ∉ ([] : List String)) := by
  have hsel : selectOptimalQuestion 0 [demoQuestion] [] (fun _ => 0) =
      some demoQuestion := by
    simp [selectOptimalQuestion, List.filter, selectLoop]
  exact ⟨hsel,
    (selectOptimalQuestion_spec 0 [demoQuestion] [] (fun _ => 0)).2
      demoQuestion hsel⟩

end IRT

namespace IRT

lemma selectLoop_map_setGuessing (theta : ℝ) (rand : ℕ → ℝ)
    (g : QuestionIRT → ℝ) :
    ∀ (l : List QuestionIRT) (i : ℕ) (acc : Option (ℝ × QuestionIRT)),
      selectLoop theta rand (l.map (setGuessing g)) i
          (acc.map (fun mb => (mb.1, setGuessing g mb.2))) =
        (selectLoop theta rand l i acc).map (setGuessing g) := by
  intro l
  induction l with
  | nil =>
    intro i acc
    cases acc with
    | none => simp [selectLoop]
    | some mb => simp [selectLoop]
  | cons x rest ih =>
    intro i acc
    simp only [List.map_cons, selectLoop, setGuessing_difficulty,
      setGuessing_discrimination]
    cases acc with
    | none =>
      simp only [Option.map_none']
      exact ih (i + 1) (some (fisherInformation theta
        { difficulty := x.difficulty, discrimination := x.discrimination,
          guessing := GUESSING_DEFAULT } * (0.95 + rand i * 0.1), x))
    | some mb =>
      obtain ⟨m, b⟩ := mb
      simp only [Option.map_some']
      by_cases hgt : fisherInformation theta
          { difficulty := x.difficulty, discrimination := x.discrimination,
            guessing := GUESSING_DEFAULT } * (0.95 + rand i * 0.1) > m
      · rw [if_pos hgt, if_pos hgt]
        exact ih (i + 1) (some (fisherInformation theta
          { difficulty := x.difficulty, discrimination := x.discrimination,
            guessing := GUESSING_DEFAULT } * (0.95 + rand i * 0.1), x))
      · rw [if_neg hgt, if_neg hgt]
        exact ih (i + 1) (some (m, b))

/-- C10: the selector's choice is independent of the candidates' guessing
parameters, because the loop recomputes each candidate's parameters with the
fixed default guessing value 0.25: rewriting every candidate's guessing field
through an arbitrary function yields the correspondingly rewritten version of
the very same selected item (same identity, difficulty and discrimination),
for the same random stream. -/
theorem selectOptimalQuestion_ignores_guessing (theta : ℝ)
    (qs : List QuestionIRT) (ans : List String) (rand : ℕ → ℝ)
    (g : QuestionIRT → ℝ) :
    selectOptimalQuestion theta (qs.map (setGuessing g)) ans rand =
      (selectOptimalQuestion theta qs ans rand).map (setGuessing g) := by
  simp only [selectOptimalQuestion]
  have hfilter : (qs.map (setGuessing g)).filter
        (fun r => decide (r.id ∉ ans)) =
      (qs.filter (fun r => decide (r.id ∉ ans))).map (setGuessing g) := by
    rw [List.filter_map]
    congr 1
  rw [hfilter]
  by_cases he : (qs.filter (fun r => decide (r.id ∉ ans))).isEmpty
  · rw [if_pos he]
    rw [if_pos (show ((qs.filter (fun r => decide (r.id ∉ ans))).map
        (setGuessing g)).isEmpty = true by
      rw [List.isEmpty_iff] at he ⊢
      rw [he, List.map_nil])]
    simp
  · rw [if_neg he]
    rw [if_neg (show ¬ ((qs.filter (fun r => decide (r.id ∉ ans))).map
        (setGuessing g)).isEmpty = true by
      rw [List.isEmpty_iff] at he ⊢
      simpa using he)]
    simpa using selectLoop_map_setGuessing theta rand g
      (qs.filter (fun r => decide (r.id ∉ ans))) 0 none

end IRT
